import Mathlib

/-!
# Verification of `tax_credit/eval_framework.py`

A shallow embedding of the evaluation framework's data model and operations,
together with theorems settling the specification's claims about them.

Conventions of the embedding:
* Python floats holding counts and metric values are modelled as `ℚ`.
* A biom sparse count table is a list of observations (id, taxonomy metadata,
  one count per sample) plus a list of sample ids.
* Python string operations are re-implemented structurally on `List Char` so
  that every definition is executable by the kernel.
* Fallible operations return `Except`/`Option`.
-/

/-! ## Python string primitives -/

/-- Removes every whitespace character from a string; models the Python idiom
`"".join(observation_id.split())` used in `get_observed_observation_ids`. -/
def pyRemoveWs (s : String) : String :=
  String.mk (s.data.filter (fun c => !c.isWhitespace))

/-- Splits a character list on a separator character.  The empty input yields
`[[]]`, matching Python `"".split(sep) == [""]`. -/
def splitCharList (sep : Char) (l : List Char) : List (List Char) :=
  l.foldr (fun c acc =>
    if c = sep then [] :: acc
    else
      match acc with
      | h :: t => (c :: h) :: t
      | [] => [[c]]) [[]]

/-- Models Python `s.split(sep)` for a one-character separator. -/
def pySplit (s : String) (sep : Char) : List String :=
  (splitCharList sep s.data).map String.mk

/-- Models Python `sep.join(xs)` for a list of strings. -/
def pyJoin (sep : String) : List String → String
  | [] => ""
  | [x] => x
  | x :: y :: xs => x ++ sep ++ pyJoin sep (y :: xs)

/-- Models Python `s.strip()`: removes leading and trailing whitespace. -/
def pyStrip (s : String) : String :=
  String.mk (((s.data.dropWhile Char.isWhitespace).reverse.dropWhile
    Char.isWhitespace).reverse)

/-- Models Python `s.startswith(t)` for a single string argument `t`. -/
def pyStartsWith (s t : String) : Bool :=
  t.data.isPrefixOf s.data

/-- Models Python `float(e)` applied to a ONE-CHARACTER string, the only shape
it is applied to in `compute_mock_results` (the token loop iterates over the
characters of each `:`-separated token): a digit parses to its value, any
other single character raises `ValueError` (here: `none`). -/
def pyFloatOfChar (c : Char) : Option ℚ :=
  if c.isDigit then some ((c.toNat - 48 : ℕ) : ℚ) else none

/-! ## Data model -/

/-- The two well-formed shapes of the taxonomy metadata value carried by an
observation: a single `;`-delimited string, or a pre-split list of rank
strings.  Both shapes are accepted throughout `eval_framework.py`. -/
inductive TaxVal where
  | tstr (s : String)
  | tranks (rs : List String)
deriving DecidableEq

/-- Python `len(v)` on a taxonomy metadata value: the number of characters for
a delimited string, the number of ranks for a pre-split list.  This is what
`filter_table` computes with `len(metadata[md_key])`. -/
def TaxVal.pyLen : TaxVal → ℕ
  | .tstr s => s.length
  | .tranks rs => rs.length

/-- Python `';'.join(v)` on a taxonomy metadata value, as evaluated in
`filter_table`: joins the ranks when the value is a list; when the value is a
plain string, Python iterates its characters, so `;` is interleaved between
the characters. -/
def TaxVal.semicolonJoin : TaxVal → String
  | .tstr s => pyJoin ";" (s.data.map (fun c => String.mk [c]))
  | .tranks rs => pyJoin ";" rs

/-- The ordered rank list of a taxonomy metadata value, as produced by the
two branches of `get_taxonomy_collapser`: a delimited string is split on `;`,
a pre-split list is taken as is. -/
def TaxVal.ranks : TaxVal → List String
  | .tstr s => pySplit s ';'
  | .tranks rs => rs

/-- One observation row of a biom table: observation id, taxonomy metadata
(under the configured metadata key), and one count per sample, parallel to
the table's sample-id list. -/
structure Observation where
  id : String
  md : TaxVal
  counts : List ℚ
deriving DecidableEq

/-- A biom sparse count table: unique observation ids carrying metadata and
counts, and unique sample ids. -/
structure Table where
  obs : List Observation
  samples : List String
deriving DecidableEq

/-- Models biom `table.get_value_by_ids(obs_id, sample_id)`: the count of the
named observation in the named sample (0 outside the table, where biom would
raise `UnknownIDError`; all uses in the source look up ids present in the
table). -/
def Table.getValue (t : Table) (oid sid : String) : ℚ :=
  match t.obs.find? (fun o => decide (o.id = oid)) with
  | some o => o.counts.getD (t.samples.findIdx (fun x => decide (x = sid))) 0
  | none => 0

/-- Models biom `table.is_empty()`: no observations or no samples. -/
def Table.isEmpty (t : Table) : Bool :=
  t.obs.isEmpty || t.samples.isEmpty

/-- The sample id actually used given an optional `sample_id` argument: the
source defaults to `table.ids(axis="sample")[0]`. -/
def effSampleId (t : Table) (sid : Option String) : String :=
  match sid with
  | none => t.samples.headD ""
  | some s => s

/-! ## Metric engine -/

/-- The list of observation ids with strictly positive count in the chosen
sample, each id optionally cleansed of all whitespace, in table order and
possibly with duplicates; `get_observed_observation_ids` returns its set. -/
def observedIdsList (t : Table) (sid : Option String) (wsStrip : Bool) :
    List String :=
  ((t.obs.filter (fun o =>
      decide (0 < t.getValue o.id (effSampleId t sid)))).map
    (fun o => if wsStrip then pyRemoveWs o.id else o.id))

/-- Embeds `get_observed_observation_ids(table, sample_id, ws_strip)`: the set
of observation ids with count > 0 in `sample_id` (default: first sample id),
with all whitespace removed from each id when `ws_strip` is true. -/
def get_observed_observation_ids (t : Table) (sid : Option String)
    (wsStrip : Bool) : Finset String :=
  (observedIdsList t sid wsStrip).toFinset

/-- Embeds `compute_prf(actual_table, expected_table, actual_sample_id,
expected_sample_id)`: presence/absence precision, recall and F-measure over
the whitespace-stripped observed-id sets, with the `tp == 0` branch returning
`(0, 0, 0)`. -/
def compute_prf (actual expected : Table) (asid esid : Option String) :
    ℚ × ℚ × ℚ :=
  let A := get_observed_observation_ids actual asid true
  let E := get_observed_observation_ids expected esid true
  let tp : ℕ := (A ∩ E).card
  let fp : ℕ := (A \ E).card
  let fnn : ℕ := (E \ A).card
  if 0 < tp then
    let p : ℚ := (tp : ℚ) / ((tp : ℚ) + (fp : ℚ))
    let r : ℚ := (tp : ℚ) / ((tp : ℚ) + (fnn : ℚ))
    (p, r, 2 * p * r / (p + r))
  else (0, 0, 0)

/-! Sanity examples (small concrete checks of the embedding). -/

example : pyRemoveWs "k  __1" = pyRemoveWs "k__1" := by decide

example : pySplit "a;;b" ';' = ["a", "", "b"] := by decide

example : pySplit "" ';' = [""] := by decide

example : pyJoin ";" ["a", "b", "c"] = "a;b;c" := by decide

example : pyStrip "  k__A " = "k__A" := by decide

example : TaxVal.semicolonJoin (.tstr "ab") = "a;b" := by decide

/-! ## Taxonomy collapser -/

/-- Embeds the closure built by `get_taxonomy_collapser(level, md_key)`: the
taxonomy metadata value (delimited string, split on `;`, or pre-split rank
list — the `AttributeError` fallback) is stripped rank-by-rank, truncated to
the first `level+1` ranks by a Python slice (a no-op past the end), and
re-joined with `;`.  Total on both well-formed metadata shapes. -/
def get_taxonomy_collapser (level : ℕ) : String → TaxVal → String :=
  fun _id md => pyJoin ";" ((md.ranks.map pyStrip).take (level + 1))

/-! ## Table filter (`filter_table`) -/

/-- Embeds the predicate `f(data_vector, id_, metadata)` defined inside
`filter_table`, for observations carrying well-formed taxonomy metadata.
`taxaToKeep = none` models `taxa_to_keep = None` (where the source's
`';'.join` raises `TypeError` and `_taxa_to_keep` becomes `None`).  Note that
the source joins the WHOLE allowlist into the single string
`_taxa_to_keep = ';'.join(taxa_to_keep)` and tests `startswith` against that
one string, and that `enough_levels` tests Python `len` of the metadata
value. -/
def filter_pred (minCount : ℚ) (taxonomyLevel : Option ℕ)
    (taxaToKeep : Option (List String)) (dataVector : List ℚ) (id_ : String)
    (md : TaxVal) : Bool :=
  let tk := taxaToKeep.map (pyJoin ";")
  let enoughLevels :=
    match taxonomyLevel with
    | none => true
    | some lv => decide (lv + 1 ≤ md.pyLen)
  let allowedTaxa :=
    match tk with
    | none => true
    | some t => pyStartsWith id_ t || pyStartsWith md.semicolonJoin t
  let sufficientCount := decide (minCount ≤ dataVector.sum)
  sufficientCount && allowedTaxa && enoughLevels

/-- Embeds `filter_table(table, min_count, taxonomy_level, taxa_to_keep)`:
keeps the observations satisfying `filter_pred`.  The biom collaborator's
filter raises `TableException` when every observation is removed (the
behaviour `mount_observations` relies on, per its own comment); that outcome
is the `.error` case. -/
def filter_table (t : Table) (minCount : ℚ) (taxonomyLevel : Option ℕ)
    (taxaToKeep : Option (List String)) : Except Unit Table :=
  let kept := t.obs.filter
    (fun o => filter_pred minCount taxonomyLevel taxaToKeep o.counts o.id o.md)
  if kept.isEmpty then .error () else .ok { t with obs := kept }

/-! ## Table loader (`mount_observations`) -/

/-- Componentwise sum of two count rows. -/
def addRows (a b : List ℚ) : List ℚ := a.zipWith (· + ·) b

/-- Models biom `table.collapse(collapse_f, axis='observation',
min_group_size=1)`: observations are grouped by their collapse key, counts
summed within a group; the collapsed observation is keyed by the collapse
string (biom replaces the taxonomy metadata by bookkeeping metadata, modelled
here as the group key itself). -/
def Table.collapse (t : Table) (keyFn : String → TaxVal → String) : Table :=
  let keys := ((t.obs.map (fun o => keyFn o.id o.md)).dedup)
  { samples := t.samples,
    obs := keys.map (fun k =>
      { id := k, md := .tstr k,
        counts := ((t.obs.filter (fun o => decide (keyFn o.id o.md = k))).map
          (·.counts)).foldl addRows (List.replicate t.samples.length 0) }) }

/-- Models biom `table.norm(axis='sample')`: rescales each sample column by
its column sum (an all-zero column is left at zero; in `ℚ`, `0 / 0 = 0`). -/
def Table.normSamples (t : Table) : Table :=
  let colSum := fun (j : ℕ) => (t.obs.map (fun o => o.counts.getD j 0)).sum
  { samples := t.samples,
    obs := t.obs.map (fun o =>
      { o with counts := ((List.range t.samples.length).map
          (fun j => o.counts.getD j 0 / colSum j)) }) }

/-- The error raised by `mount_observations` when the table is empty after the
filtering block (`ValueError("Table is empty after filtering at {fp}")`). -/
inductive MountError where
  | emptyAfterFiltering (fp : String)
deriving DecidableEq

/-- Embeds `mount_observations(table_fp, min_count, taxonomy_level,
taxa_to_keep, md_key, normalize, clean_obs_ids, filter_obs)` from the point
where the table has been parsed (`table` is the loaded table; the parse
branch is the I/O collaborator).  Faithful control flow: the filtering block
runs only when `filter_obs and min_count > 0 and taxa_to_keep is not None`;
a `TableException` from the filter (all data filtered out) is caught and
`pass`ed, leaving `table` bound to the UNFILTERED table; the emptiness check
then runs on whatever `table` denotes; finally the table is collapsed at
`taxonomy_level` and optionally normalized. -/
def mount_observations (table_fp : String) (table : Table) (minCount : ℚ)
    (taxonomyLevel : ℕ) (taxaToKeep : Option (List String)) (normalize : Bool)
    (filterObs : Bool) : Except MountError Table :=
  let filteringActive := filterObs && decide (0 < minCount) && taxaToKeep.isSome
  let t1 :=
    if filteringActive then
      match filter_table table minCount (some taxonomyLevel) taxaToKeep with
      | .error _ => table
      | .ok t' => t'
    else table
  if filteringActive && t1.isEmpty then
    .error (.emptyAfterFiltering table_fp)
  else
    let t2 := t1.collapse (get_taxonomy_collapser taxonomyLevel)
    .ok (if normalize then t2.normSamples else t2)

/-! ## Aligned abundance vectors -/

/-- The sample INDEX used by `get_actual_and_expected_vectors`: 0 when no
sample id is given, otherwise `table.index(sample_id, axis="sample")`. -/
def sampleIdxOf (t : Table) (sid : Option String) : ℕ :=
  match sid with
  | none => 0
  | some s => t.samples.findIdx (fun x => decide (x = s))

/-- One entry of an aligned vector: `table[obs_idx, sample_idx]` when the id
is an observation of the table, `0.0` on `UnknownIDError`. -/
def alignedValue (t : Table) (sidx : ℕ) (oid : String) : ℚ :=
  match t.obs.find? (fun o => decide (o.id = oid)) with
  | none => 0
  | some o => o.counts.getD sidx 0

/-- The id enumeration `all_obs_ids = list(actual_obs_ids | expected_obs_ids)`
(no whitespace stripping), in a fixed duplicate-free order. -/
def unionObsIds (actual expected : Table) (asid esid : Option String) :
    List String :=
  (observedIdsList actual asid false ++ observedIdsList expected esid false).dedup

/-- Embeds `get_actual_and_expected_vectors(actual_table, expected_table,
actual_sample_id, expected_sample_id)`: both vectors run over the same union
id list, each entry being the table's count for that id (0.0 when absent). -/
def get_actual_and_expected_vectors (actual expected : Table)
    (asid esid : Option String) : List ℚ × List ℚ :=
  let allObsIds := unionObsIds actual expected asid esid
  (allObsIds.map (alignedValue actual (sampleIdxOf actual asid)),
   allObsIds.map (alignedValue expected (sampleIdxOf expected esid)))

/-! ## Parameter decoding (`compute_mock_results`) -/

/-- A decoded Python value appended to `v_`: result of a successful
`float(e)` parse, or the raw string fallback. -/
inductive PyVal where
  | num (q : ℚ)
  | str (s : String)
deriving DecidableEq

/-- One character of a parameter token, decoded as `compute_mock_results`
does inside `for e in v: try: v_.append(float(e)) except ValueError:
v_.append(e)` — note `e` ranges over the CHARACTERS of the token `v`. -/
def pyDecodeChar (e : Char) : PyVal :=
  match pyFloatOfChar e with
  | some q => .num q
  | none => .str (String.mk [e])

/-- The decoded value list `v_` built for one `:`-separated token of
`parameter_id`: one `PyVal` per character of the token. -/
def decodeToken (v : String) : List PyVal :=
  v.data.map pyDecodeChar

/-- Embeds the `param_data[(method_id, params)]` construction of
`compute_mock_results`: `zip(param_ids[method_id], params.split(':'))`
binds each schema name to the decoded value list of its token. -/
def paramBindings (names : List String) (params : String) :
    List (String × List PyVal) :=
  (names.zip (pySplit params ':')).map (fun kv => (kv.1, decodeToken kv.2))

/-- The built-in per-method parameter-name schema `param_ids` defined at the
top of `compute_mock_results`. -/
def default_param_ids : List (String × List String) :=
  [("rdp", ["confidence"]),
   ("blast", ["e-value"]),
   ("sortmerna", ["min consensus fraction", "similarity",
                  "best N alignments", "coverage", "e value"]),
   ("sortmerna-w16", ["min consensus fraction", "similarity",
                      "best N alignments", "coverage", "e value"]),
   ("uclust", ["min consensus fraction", "similarity", "max accepts"]),
   ("vsearch", ["min consensus fraction", "similarity", "max accepts"])]

/-- Models Python `base.update(upd)` on a dict kept as an association list:
existing keys are overwritten in place, new keys appended in order. -/
def pyDictUpdate (base upd : List (String × List String)) :
    List (String × List String) :=
  (base.map (fun kv =>
    match upd.find? (fun kv2 => decide (kv2.1 = kv.1)) with
    | some kv2 => kv2
    | none => kv)) ++
  upd.filter (fun kv2 => !(base.any (fun kv => decide (kv.1 = kv2.1))))

/-- The effective per-method schema used by `compute_mock_results` given the
caller's `new_param_ids` argument.  Faithful to the source: the line
`new_param_ids = {}` at the top of the function body rebinds the argument to
an empty dict before `param_ids.update(new_param_ids)` runs, so the argument
never reaches the update. -/
def compute_mock_results_param_ids
    (new_param_ids : List (String × List String)) :
    List (String × List String) :=
  let clobbered : List (String × List String) := []
  pyDictUpdate default_param_ids clobbered

/-- Python dict lookup `param_ids[method_id]` (raises `KeyError` ↦ `none`). -/
def lookupParamIds (schema : List (String × List String)) (methodId : String) :
    Option (List String) :=
  (schema.find? (fun kv => decide (kv.1 = methodId))).map (·.2)

/-! ## Durable memo of `evaluate_results` -/

/-- A row of the persisted results table; only the columns that the
aggregation functions consume are modelled (the metric column under
comparison is `metricValue`). -/
structure ResultRow where
  dataset : String
  sampleID : String
  method : String
  params : String
  metricValue : ℚ
deriving DecidableEq

/-- The output file system seen by `evaluate_results`, as an association
list from paths to persisted results tables (newest entry first). -/
def fsRead (fs : List (String × List ResultRow)) (p : String) :
    Option (List ResultRow) :=
  (fs.find? (fun e => decide (e.1 = p))).map (·.2)

/-- Embeds the memo branch of `evaluate_results`: when `results_fp` does not
exist or `force` is true, the results are computed (modelled by the value
`computed`, the output of `compute_mock_results`) and persisted by `to_csv`;
otherwise the persisted table is read back unchanged and nothing is
written. -/
def evaluate_results_memo (fs : List (String × List ResultRow))
    (results_fp : String) (force : Bool) (computed : List ResultRow) :
    List (String × List ResultRow) × List ResultRow :=
  match fsRead fs results_fp, force with
  | some stored, false => (fs, stored)
  | _, _ => ((results_fp, computed) :: fs, computed)

/-! ## Aggregation / ranking (`get_sample_to_top_params`) -/

/-- Descending insertion into a metric-sorted row list. -/
def insertDesc (r : ResultRow) : List ResultRow → List ResultRow
  | [] => [r]
  | x :: xs =>
    if x.metricValue ≤ r.metricValue then r :: x :: xs
    else x :: insertDesc r xs

/-- Models `df.sort_values(by=metric, ascending=False)`. -/
def sortDescByMetric (rows : List ResultRow) : List ResultRow :=
  rows.foldr insertDesc []

/-- The rows of one (dataset, sample, method) cell, in row order:
`dataset_sid_results[dataset_sid_results.Method == method]`. -/
def methodRows (rows : List ResultRow) (dataset sid method : String) :
    List ResultRow :=
  rows.filter (fun r =>
    decide (r.dataset = dataset) && decide (r.sampleID = sid) &&
    decide (r.method = method))

/-- Python/pandas `max()` of a series (the empty case is irrelevant: an empty
selection stays empty whatever the threshold). -/
def pyMaxQ : List ℚ → ℚ
  | [] => 0
  | x :: xs => xs.foldl max x

/-- pandas `Series.mean()`. -/
def pyMean (xs : List ℚ) : ℚ := xs.sum / (xs.length : ℚ)

/-- pandas `Series.mad()`: mean absolute deviation around the mean. -/
def pyMad (xs : List ℚ) : ℚ :=
  pyMean (xs.map (fun x => |x - pyMean xs|))

/-- Embeds one cell of `get_sample_to_top_params(df, metric)`: for the given
(dataset, sample) and method, the `Parameters` of the rows whose metric value
is ≥ (max − mad), drawn from the metric-sorted frame. -/
def get_sample_to_top_params (rows : List ResultRow)
    (dataset sid method : String) : List String :=
  let mrs := methodRows (sortDescByMetric rows) dataset sid method
  let maxV := pyMaxQ (mrs.map (·.metricValue))
  let madV := pyMad (mrs.map (·.metricValue))
  (mrs.filter (fun r => decide (maxV - madV ≤ r.metricValue))).map (·.params)

/-! ## Spec-side comparison definitions

Definitions in this section follow the WORDS of spec claims (for refinement
comparison against the source-derived definitions above); they are not
translations of the source. -/

/-- Minimal Python `float(v)` parse of a whole token (unsigned decimal
numeral with an optional fractional part), used only by the spec-side
definitions below. -/
def pyFloatOfToken (v : String) : Option ℚ :=
  match pySplit v '.' with
  | [a] =>
    if a.data ≠ [] ∧ a.data.all Char.isDigit then
      some ((a.data.foldl (fun n c => 10 * n + (c.toNat - 48)) 0 : ℕ) : ℚ)
    else none
  | [a, b] =>
    if a.data ≠ [] ∧ b.data ≠ [] ∧ a.data.all Char.isDigit ∧
        b.data.all Char.isDigit then
      some (((a.data.foldl (fun n c => 10 * n + (c.toNat - 48)) 0 : ℕ) : ℚ) +
        ((b.data.foldl (fun n c => 10 * n + (c.toNat - 48)) 0 : ℕ) : ℚ) /
          ((10 : ℚ) ^ b.data.length))
    else none
  | _ => none

/-- Modelled from claim C2's words: each `:`-separated token is decoded AS
ONE VALUE — numeric parse attempted on the whole token, falling back to the
raw token string — and each schema name is bound to that single decoded
value (represented as the one-element value list the accumulator would
hold). -/
def specParamBindings (names : List String) (params : String) :
    List (String × List PyVal) :=
  (names.zip (pySplit params ':')).map (fun kv =>
    (kv.1, [match pyFloatOfToken kv.2 with
            | some q => PyVal.num q
            | none => PyVal.str kv.2]))

/-- Modelled from claim C4's words: an observation is retained iff its total
count is at least `min_count`, AND (when a level is specified) its taxonomy
annotation has at least `taxonomy_level + 1` RANKS, AND its id or its
`;`-joined taxonomy string starts with ONE OF the allowlist prefixes. -/
def specFilterPred (minCount : ℚ) (taxonomyLevel : Option ℕ)
    (taxaToKeep : List String) (dataVector : List ℚ) (id_ : String)
    (md : TaxVal) : Bool :=
  let enoughRanks :=
    match taxonomyLevel with
    | none => true
    | some lv => decide (lv + 1 ≤ md.ranks.length)
  let allowedTaxa := taxaToKeep.any (fun t =>
    pyStartsWith id_ t || pyStartsWith (pyJoin ";" md.ranks) t)
  decide (minCount ≤ dataVector.sum) && allowedTaxa && enoughRanks

/-! ## Claim C1 — `compute_prf` -/

/-- C1: for every pair of tables and sample ids, `compute_prf` computes
tp/fp/fn over the whitespace-stripped observed-id sets and returns
`precision = tp/(tp+fp)`, `recall = tp/(tp+fn)`,
`f = 2·p·r/(p+r)` when `tp > 0`, and exactly `(0, 0, 0)` when `tp = 0`;
in particular `(0, 0, 0)` for disjoint id sets and `(1, 1, 1)` for equal
non-empty id sets. -/
theorem compute_prf_correct (actual expected : Table)
    (asid esid : Option String) (A E : Finset String)
    (hA : A = get_observed_observation_ids actual asid true)
    (hE : E = get_observed_observation_ids expected esid true) :
    ((A ∩ E).card = 0 → compute_prf actual expected asid esid = (0, 0, 0))
  ∧ (0 < (A ∩ E).card →
      compute_prf actual expected asid esid =
        (((A ∩ E).card : ℚ) / (((A ∩ E).card : ℚ) + ((A \ E).card : ℚ)),
         ((A ∩ E).card : ℚ) / (((A ∩ E).card : ℚ) + ((E \ A).card : ℚ)),
         2 * (((A ∩ E).card : ℚ) / (((A ∩ E).card : ℚ) + ((A \ E).card : ℚ))) *
             (((A ∩ E).card : ℚ) / (((A ∩ E).card : ℚ) + ((E \ A).card : ℚ))) /
           ((((A ∩ E).card : ℚ) / (((A ∩ E).card : ℚ) + ((A \ E).card : ℚ))) +
            (((A ∩ E).card : ℚ) / (((A ∩ E).card : ℚ) + ((E \ A).card : ℚ))))))
  ∧ (Disjoint A E → compute_prf actual expected asid esid = (0, 0, 0))
  ∧ (A = E → A.Nonempty → compute_prf actual expected asid esid = (1, 1, 1)) := by
  subst hA hE
  refine ⟨?_, ?_, ?_, ?_⟩
  · intro h
    simp [compute_prf, h]
  · intro h
    simp only [compute_prf]
    rw [if_pos h]
  · intro h
    have h0 : ((get_observed_observation_ids actual asid true) ∩
        (get_observed_observation_ids expected esid true)).card = 0 := by
      rw [Finset.card_eq_zero, ← Finset.disjoint_iff_inter_eq_empty]
      exact h
    simp [compute_prf, h0]
  · intro h hne
    have hc : (0 : ℚ) <
        ((get_observed_observation_ids actual asid true).card : ℚ) := by
      exact_mod_cast Finset.card_pos.mpr hne
    simp only [compute_prf, ← h, Finset.inter_self, Finset.sdiff_self,
      Finset.card_empty, Nat.cast_zero]
    rw [if_pos (Finset.card_pos.mpr hne)]
    rw [add_zero, div_self hc.ne']
    norm_num

/-- Witness for C1 at a concrete input: a one-observation table compared
with itself has equal non-empty observed-id sets and scores `(1, 1, 1)`. -/
theorem compute_prf_correct_witness :
    (get_observed_observation_ids
        { obs := [{ id := "A", md := .tranks ["k__A"], counts := [1] }],
          samples := ["s1"] } none true =
      get_observed_observation_ids
        { obs := [{ id := "A", md := .tranks ["k__A"], counts := [1] }],
          samples := ["s1"] } none true ∧
      (get_observed_observation_ids
        { obs := [{ id := "A", md := .tranks ["k__A"], counts := [1] }],
          samples := ["s1"] } none true).Nonempty) ∧
    compute_prf
      { obs := [{ id := "A", md := .tranks ["k__A"], counts := [1] }],
        samples := ["s1"] }
      { obs := [{ id := "A", md := .tranks ["k__A"], counts := [1] }],
        samples := ["s1"] } none none = (1, 1, 1) :=
  ⟨⟨rfl, ⟨"A", by decide⟩⟩,
    (compute_prf_correct
      { obs := [{ id := "A", md := .tranks ["k__A"], counts := [1] }],
        samples := ["s1"] }
      { obs := [{ id := "A", md := .tranks ["k__A"], counts := [1] }],
        samples := ["s1"] } none none _ _ rfl rfl).2.2.2 rfl ⟨"A", by decide⟩⟩

/-! ## Claim C7 — `get_observed_observation_ids` -/

/-- C7: `get_observed_observation_ids` returns the set of observation ids
with strictly positive count in the given sample (defaulting to the table's
first sample id), with all whitespace removed from each id when stripping is
requested, so ids differing only in internal whitespace collapse. -/
theorem get_observed_observation_ids_correct :
    (∀ (t : Table) (s : String) (strip : Bool) (x : String),
      x ∈ get_observed_observation_ids t (some s) strip ↔
        ∃ o ∈ t.obs, 0 < t.getValue o.id s ∧
          x = (if strip then pyRemoveWs o.id else o.id))
  ∧ (∀ (t : Table) (strip : Bool),
      get_observed_observation_ids t none strip =
        get_observed_observation_ids t (some (t.samples.headD "")) strip)
  ∧ pyRemoveWs "k  __1" = pyRemoveWs "k__1" := by
  refine ⟨?_, ?_, by decide⟩
  · intro t s strip x
    simp only [get_observed_observation_ids, observedIdsList, effSampleId,
      List.mem_toFinset, List.mem_map, List.mem_filter, decide_eq_true_eq]
    constructor
    · rintro ⟨o, ⟨ho, hv⟩, hx⟩
      exact ⟨o, ho, hv, hx.symm⟩
    · rintro ⟨o, ho, hv, hx⟩
      exact ⟨o, ⟨ho, hv⟩, hx.symm⟩
  · intro t strip
    rfl

/-! ## Claim C10 — `get_taxonomy_collapser` totality -/

/-- C10: the collapse function returned by `get_taxonomy_collapser` is total
on both taxonomy-metadata shapes and never errors on a level deeper than the
available ranks: it returns the `;`-join of the first `level+1`
whitespace-stripped ranks, and when the taxonomy has at most `level+1` ranks
it returns the `;`-join of all of them (truncation past the end is a no-op,
not an error).  Totality is by construction: the embedding is a plain
function defined on every `TaxVal`. -/
theorem get_taxonomy_collapser_correct :
    (∀ (L : ℕ) (id_ : String) (md : TaxVal),
      get_taxonomy_collapser L id_ md =
        pyJoin ";" ((md.ranks.map pyStrip).take (L + 1)))
  ∧ (∀ (L : ℕ) (id_ : String) (md : TaxVal),
      md.ranks.length ≤ L + 1 →
      get_taxonomy_collapser L id_ md = pyJoin ";" (md.ranks.map pyStrip)) := by
  refine ⟨fun L id_ md => rfl, fun L id_ md h => ?_⟩
  have : (md.ranks.map pyStrip).take (L + 1) = md.ranks.map pyStrip := by
    apply List.take_of_length_le
    simpa using h
  simp [get_taxonomy_collapser, this]

/-- Witness for C10 at a concrete input: a two-rank taxonomy collapsed at
level 2 (slice end 3 past the available ranks) joins both ranks unchanged. -/
theorem get_taxonomy_collapser_correct_witness :
    (TaxVal.tstr "k__A; p__B").ranks.length ≤ 2 + 1 ∧
    get_taxonomy_collapser 2 "O1" (TaxVal.tstr "k__A; p__B") =
      pyJoin ";" ((TaxVal.tstr "k__A; p__B").ranks.map pyStrip) :=
  ⟨by decide,
    get_taxonomy_collapser_correct.2 2 "O1" (TaxVal.tstr "k__A; p__B")
      (by decide)⟩

/-! ## Claim C3 — caller-supplied `new_param_ids` -/

/-- C3 (code bug): the caller-supplied `new_param_ids` mapping never reaches
the schema: `compute_mock_results` rebinds `new_param_ids = {}` before
`param_ids.update(new_param_ids)`, so the effective schema is always exactly
the built-in default — a caller's override of `rdp` (documented by
`evaluate_results`'s docstring and passed through at its call site) is
silently discarded. -/
theorem compute_mock_results_param_ids_ignores_caller :
    (∀ new_param_ids : List (String × List String),
      compute_mock_results_param_ids new_param_ids = default_param_ids)
  ∧ compute_mock_results_param_ids [("rdp", ["my confidence"])] ≠
      pyDictUpdate default_param_ids [("rdp", ["my confidence"])]
  ∧ lookupParamIds
      (compute_mock_results_param_ids [("rdp", ["my confidence"])]) "rdp" =
      some ["confidence"] := by
  refine ⟨?_, by decide, by decide⟩
  intro npi
  show pyDictUpdate default_param_ids [] = default_param_ids
  simp [pyDictUpdate]

/-! ## Claim C8 — durable memo of `evaluate_results` -/

/-- C8: when the output path already exists and `force` is false,
`evaluate_results` performs no recomputation: the persisted table is loaded
and returned, the stored state is unchanged (and the returned value does not
depend on what a recomputation would have produced); hence a second run
against the same output path is a no-op read-back. -/
theorem evaluate_results_memo_correct :
    (∀ (fs : List (String × List ResultRow)) (results_fp : String)
        (stored computed : List ResultRow),
      fsRead fs results_fp = some stored →
      evaluate_results_memo fs results_fp false computed = (fs, stored))
  ∧ (∀ (fs : List (String × List ResultRow)) (results_fp : String)
        (stored computed computed2 : List ResultRow),
      fsRead fs results_fp = some stored →
      evaluate_results_memo fs results_fp false computed =
        evaluate_results_memo fs results_fp false computed2)
  ∧ (∀ (fs : List (String × List ResultRow)) (results_fp : String)
        (computed computed2 : List ResultRow),
      fsRead fs results_fp = none →
      evaluate_results_memo
          (evaluate_results_memo fs results_fp false computed).1 results_fp
          false computed2 =
        evaluate_results_memo fs results_fp false computed) := by
  refine ⟨?_, ?_, ?_⟩
  · intro fs fp stored computed h
    simp [evaluate_results_memo, h]
  · intro fs fp stored computed computed2 h
    simp [evaluate_results_memo, h]
  · intro fs fp computed computed2 h
    have h1 : evaluate_results_memo fs fp false computed =
        ((fp, computed) :: fs, computed) := by
      simp [evaluate_results_memo, h]
    have h2 : fsRead ((fp, computed) :: fs) fp = some computed := by
      simp [fsRead]
    rw [h1]
    simp [evaluate_results_memo, h2]

/-- Witness for C8 at a concrete input: with one persisted table at
`"results.tsv"`, a `force=false` run returns it and leaves the store
unchanged. -/
theorem evaluate_results_memo_correct_witness :
    fsRead [("results.tsv", [⟨"mock-1", "s1", "rdp", "0.5", 1⟩])]
        "results.tsv" = some [⟨"mock-1", "s1", "rdp", "0.5", 1⟩] ∧
    evaluate_results_memo
        [("results.tsv", [⟨"mock-1", "s1", "rdp", "0.5", 1⟩])] "results.tsv"
        false [] =
      ([("results.tsv", [⟨"mock-1", "s1", "rdp", "0.5", 1⟩])],
       [⟨"mock-1", "s1", "rdp", "0.5", 1⟩]) :=
  ⟨rfl,
    evaluate_results_memo_correct.1
      [("results.tsv", [⟨"mock-1", "s1", "rdp", "0.5", 1⟩])] "results.tsv"
      [⟨"mock-1", "s1", "rdp", "0.5", 1⟩] [] rfl⟩

/-! ## Claim C2 — parameter decoding -/

/-- Counterexample to C2: for schema `['confidence']` and
`parameter_id = "10"`, the claim's decoding ("each token decoded as one
value, numeric parse first") binds `confidence ↦ 10.0`, but the code's
per-CHARACTER loop (`for e in v`) binds `confidence ↦ [1.0, 0.0]`. -/
theorem paramBindings_counterexample :
    paramBindings ["confidence"] "10" =
      [("confidence", [PyVal.num 1, PyVal.num 0])] ∧
    specParamBindings ["confidence"] "10" =
      [("confidence", [PyVal.num 10])] ∧
    paramBindings ["confidence"] "10" ≠ specParamBindings ["confidence"] "10" :=
  ⟨by decide, by decide, by decide⟩

/-- C2 (amended): `compute_mock_results` splits `parameter_id` on `:` and
decodes each token CHARACTER BY CHARACTER — attempting numeric parse on each
character and falling back to the one-character string — and zips the schema
names against the tokens, binding each name to the ordered list of decoded
characters of its token (the bindings are then joined onto the results table
by (method, parameters)). -/
theorem paramBindings_amended :
    (∀ (names : List String) (params : String),
      (paramBindings names params).length =
        min names.length (pySplit params ':').length)
  ∧ (∀ (names : List String) (params : String) (i : ℕ) (k : String)
        (vs : List PyVal),
      (paramBindings names params).get? i = some (k, vs) ↔
        (names.get? i = some k ∧
         ∃ tok, (pySplit params ':').get? i = some tok ∧
           vs = tok.data.map pyDecodeChar)) := by
  have aux : ∀ (as bs : List String) (i : ℕ) (k : String) (vs : List PyVal),
      ((as.zip bs).map (fun kv => (kv.1, decodeToken kv.2))).get? i =
          some (k, vs) ↔
        (as.get? i = some k ∧
         ∃ tok, bs.get? i = some tok ∧ vs = tok.data.map pyDecodeChar) := by
    intro as
    induction as with
    | nil => intro bs i k vs; simp
    | cons a as ih =>
      intro bs i k vs
      cases bs with
      | nil => simp
      | cons b bs =>
        cases i with
        | zero =>
          simp only [List.zip_cons_cons, List.map_cons, List.get?_cons_zero,
            Option.some.injEq, Prod.mk.injEq, decodeToken]
          constructor
          · rintro ⟨rfl, rfl⟩
            exact ⟨rfl, b, rfl, rfl⟩
          · rintro ⟨ha, tok, htok, rfl⟩
            cases htok
            exact ⟨ha, rfl⟩
        | succ n =>
          simpa [List.zip_cons_cons, List.map_cons, List.get?_cons_succ]
            using ih bs n k vs
  exact ⟨fun names params => by simp [paramBindings, List.length_zip],
    fun names params => aux names (pySplit params ':')⟩

/-! ## Claim C4 — `filter_table` retention conditions -/

/-- Counterexample to C4, in two parts.  (a) Allowlist of two prefixes
`["k__A", "k__B"]`: the id `"k__A;x"` starts with the allowlist entry
`"k__A"`, so the claim retains the observation, but the code tests
`startswith` against the SINGLE string `';'.join(taxa_to_keep) =
"k__A;k__B"` and drops it.  (b) Delimited-string taxonomy `"a;b"` at level 2:
the claim requires at least 3 RANKS (there are only 2), but the code tests
Python `len` of the metadata value, i.e. 3 CHARACTERS, and retains it. -/
theorem filter_pred_counterexample :
    (filter_pred 1 (some 1) (some ["k__A", "k__B"]) [2] "k__A;x"
        (.tranks ["k__A", "x"]) = false ∧
     specFilterPred 1 (some 1) ["k__A", "k__B"] [2] "k__A;x"
        (.tranks ["k__A", "x"]) = true) ∧
    (filter_pred 1 (some 2) (some ["a"]) [2] "a;b" (.tstr "a;b") = true ∧
     specFilterPred 1 (some 2) ["a"] [2] "a;b" (.tstr "a;b") = false) := by
  have hsum : decide ((1 : ℚ) ≤ List.sum [(2 : ℚ)]) = true := by
    simp only [decide_eq_true_eq, List.sum_cons, List.sum_nil, add_zero]
    norm_num
  refine ⟨⟨?_, ?_⟩, ⟨?_, ?_⟩⟩
  · have hallow : (pyStartsWith "k__A;x" (pyJoin ";" ["k__A", "k__B"]) ||
        pyStartsWith (TaxVal.tranks ["k__A", "x"]).semicolonJoin
          (pyJoin ";" ["k__A", "k__B"])) = false := by decide
    simp [filter_pred, hallow]
  · have hallow : (["k__A", "k__B"].any (fun t =>
        pyStartsWith "k__A;x" t ||
        pyStartsWith (pyJoin ";" (TaxVal.tranks ["k__A", "x"]).ranks) t)) =
          true := by decide
    have hranks : decide (1 + 1 ≤ (TaxVal.tranks ["k__A", "x"]).ranks.length) =
        true := by decide
    simp [specFilterPred, hallow, hsum, hranks]
  · have hallow : (pyStartsWith "a;b" (pyJoin ";" ["a"]) ||
        pyStartsWith (TaxVal.tstr "a;b").semicolonJoin (pyJoin ";" ["a"])) =
          true := by decide
    have hlen : decide (2 + 1 ≤ (TaxVal.tstr "a;b").pyLen) = true := by decide
    simp [filter_pred, hallow, hsum, hlen]
  · have hranks : decide (2 + 1 ≤ (TaxVal.tstr "a;b").ranks.length) = false :=
      by decide
    simp [specFilterPred, hranks]

/-- C4 (amended): when a level and an allowlist are supplied, an observation
is retained by the filter predicate iff (logical AND) its total count is at
least `min_count`, the Python `len` of its taxonomy metadata value (ranks for
a pre-split list, characters for a delimited string) is at least
`taxonomy_level + 1`, and its id — or its `;`-joined metadata value — starts
with the single string obtained by `;`-joining the ENTIRE allowlist. -/
theorem filter_pred_amended (minCount : ℚ) (lv : ℕ) (tk : List String)
    (dataVector : List ℚ) (id_ : String) (md : TaxVal) :
    filter_pred minCount (some lv) (some tk) dataVector id_ md = true ↔
      (minCount ≤ dataVector.sum ∧
       lv + 1 ≤ md.pyLen ∧
       (pyStartsWith id_ (pyJoin ";" tk) = true ∨
        pyStartsWith md.semicolonJoin (pyJoin ";" tk) = true)) := by
  simp only [filter_pred, Bool.and_eq_true, Bool.or_eq_true, decide_eq_true_eq,
    Option.map_some']
  tauto

/-! ## Claim C5 — behaviour when filtering removes every observation -/

/-- Models the per-result-table portion of `compute_mock_results`'s main
loop: each actual table is mounted with active filtering, and the call site
has NO exception handling, so a failure for one table aborts the whole
computation rather than skipping that table. -/
def compute_mock_results_loop (tables : List (String × Table)) (minCount : ℚ)
    (taxonomyLevel : ℕ) (taxaToKeep : Option (List String)) :
    Except MountError (List Table) :=
  tables.mapM (fun e =>
    mount_observations e.1 e.2 minCount taxonomyLevel taxaToKeep true true)

/-- A one-observation table whose single observation (count 1) is removed by
any filter with `min_count = 5`. -/
def demoTable : Table :=
  { obs := [{ id := "O1", md := .tranks ["k__A", "p__B"], counts := [1] }],
    samples := ["s1"] }

/-- A table that is empty before filtering even runs. -/
def demoEmptyTable : Table := { obs := [], samples := ["s1"] }

/-- C5 (code bug, concrete evaluation): active filtering removes
`demoTable`'s only observation, so the biom filter signals `TableException`;
`mount_observations` catches it, `pass`es, and proceeds with the UNFILTERED
table — it returns `.ok` (the unfiltered table collapsed at the requested
level) and never raises the "empty after filtering" error the claim
describes.  Moreover the caller loop of `compute_mock_results` has no
per-table handler: when the error IS raised (an already-empty table), the
whole computation aborts instead of skipping that table. -/
theorem mount_observations_empty_filter_bug :
    filter_table demoTable 5 (some 1) (some ["k__A"]) = .error () ∧
    mount_observations "table.biom" demoTable 5 1 (some ["k__A"]) false true =
      .ok { obs := [{ id := "k__A;p__B", md := .tstr "k__A;p__B",
                      counts := [1] }],
            samples := ["s1"] } ∧
    (∀ e, mount_observations "table.biom" demoTable 5 1 (some ["k__A"]) false
        true ≠ .error e) ∧
    compute_mock_results_loop
        [("empty.biom", demoEmptyTable), ("table.biom", demoTable)] 5 1
        (some ["k__A"]) =
      .error (.emptyAfterFiltering "empty.biom") := by
  have hpred : filter_pred 5 (some 1) (some ["k__A"]) [1] "O1"
      (.tranks ["k__A", "p__B"]) = false := by
    have h5 : ¬ ((5 : ℚ) ≤ List.sum [(1 : ℚ)]) := by
      simp only [List.sum_cons, List.sum_nil, add_zero]
      norm_num
    simp [filter_pred, h5]
  have hft : filter_table demoTable 5 (some 1) (some ["k__A"]) = .error () := by
    simp [filter_table, demoTable, hpred]
  have hcol : demoTable.collapse (get_taxonomy_collapser 1) =
      { obs := [{ id := "k__A;p__B", md := .tstr "k__A;p__B",
                  counts := [1] }],
        samples := ["s1"] } := by
    rw [show demoTable.collapse (get_taxonomy_collapser 1) =
      { obs := [{ id := "k__A;p__B", md := .tstr "k__A;p__B",
                  counts := [(0 : ℚ) + 1] }],
        samples := ["s1"] } from rfl]
    norm_num
  have hempty : demoTable.isEmpty = false := rfl
  have hmount : mount_observations "table.biom" demoTable 5 1 (some ["k__A"])
      false true =
      .ok { obs := [{ id := "k__A;p__B", md := .tstr "k__A;p__B",
                      counts := [1] }],
            samples := ["s1"] } := by
    simp only [mount_observations, hft]
    simp [hempty, hcol, ite_self]
  refine ⟨hft, hmount, ?_, ?_⟩
  · intro e
    rw [hmount]
    exact fun h => Except.noConfusion h
  · rfl

/-! ## Claim C6 — `get_actual_and_expected_vectors` -/

/-- The data-model invariant that counts are non-negative. -/
def tableNonneg (t : Table) : Prop :=
  ∀ o ∈ t.obs, ∀ c ∈ o.counts, 0 ≤ c

/-- `get_value_by_ids` at the effective sample id agrees with the index-based
lookup `table[obs_idx, sample_idx]` used when building aligned vectors. -/
theorem getValue_eq_alignedValue (t : Table) (sid : Option String)
    (oid : String) :
    t.getValue oid (effSampleId t sid) = alignedValue t (sampleIdxOf t sid) oid := by
  cases sid with
  | some s =>
    unfold Table.getValue alignedValue sampleIdxOf effSampleId
    cases hf : t.obs.find? (fun o => decide (o.id = oid)) with
    | none => rfl
    | some o => rfl
  | none =>
    unfold Table.getValue alignedValue sampleIdxOf effSampleId
    cases hf : t.obs.find? (fun o => decide (o.id = oid)) with
    | none => rfl
    | some o =>
      have hidx : t.samples.findIdx
          (fun x => decide (x = t.samples.headD "")) = 0 := by
        cases hs : t.samples with
        | nil => rfl
        | cons h tl => simp [List.findIdx_cons]
      rw [hidx]

/-- An id with positive count at the effective sample is in the observed-id
set (without whitespace stripping). -/
theorem mem_observed_of_pos (t : Table) (sid : Option String) (oid : String)
    (h : 0 < t.getValue oid (effSampleId t sid)) :
    oid ∈ get_observed_observation_ids t sid false := by
  unfold Table.getValue at h
  cases hf : t.obs.find? (fun o => decide (o.id = oid)) with
  | none =>
    rw [hf] at h
    exact absurd h (lt_irrefl 0)
  | some o =>
    rw [hf] at h
    have hmem : o ∈ t.obs := List.mem_of_find?_eq_some hf
    have hid : o.id = oid := by
      have h2 := List.find?_some hf
      simpa using h2
    have hval : 0 < t.getValue o.id (effSampleId t sid) := by
      unfold Table.getValue
      rw [hid, hf]
      exact h
    simp only [get_observed_observation_ids, observedIdsList,
      List.mem_toFinset, List.mem_map, List.mem_filter, decide_eq_true_eq]
    exact ⟨o, ⟨hmem, hval⟩, by simp [hid]⟩

/-- Non-negative tables have non-negative lookups. -/
theorem getValue_nonneg (t : Table) (hnn : tableNonneg t) (oid sid : String) :
    0 ≤ t.getValue oid sid := by
  unfold Table.getValue
  cases hf : t.obs.find? (fun o => decide (o.id = oid)) with
  | none => exact le_refl 0
  | some o =>
    have hmem : o ∈ t.obs := List.mem_of_find?_eq_some hf
    show 0 ≤ o.counts.getD (t.samples.findIdx (fun x => decide (x = sid))) 0
    rw [List.getD_eq_get?]
    cases hg : o.counts.get? (t.samples.findIdx (fun x => decide (x = sid))) with
    | none => exact le_refl 0
    | some c => exact hnn o hmem c (List.get?_mem hg)

/-- C6: `get_actual_and_expected_vectors` returns two vectors of equal
length, the length being the size of the union of the two observed-id sets
(taken without whitespace stripping); both vectors are indexed in parallel by
the same stable id order, and (for non-negative tables) an id absent from one
side — not an observation of that table, or zero count in the chosen
sample — contributes `0.0` to that side's vector. -/
theorem get_actual_and_expected_vectors_correct (actual expected : Table)
    (asid esid : Option String) :
    ((get_actual_and_expected_vectors actual expected asid esid).1.length =
      (get_actual_and_expected_vectors actual expected asid esid).2.length)
  ∧ ((get_actual_and_expected_vectors actual expected asid esid).1.length =
      (get_observed_observation_ids actual asid false ∪
        get_observed_observation_ids expected esid false).card)
  ∧ (∀ (i : ℕ) (oid : String),
      (unionObsIds actual expected asid esid).get? i = some oid →
      (get_actual_and_expected_vectors actual expected asid esid).1.get? i =
          some (alignedValue actual (sampleIdxOf actual asid) oid) ∧
      (get_actual_and_expected_vectors actual expected asid esid).2.get? i =
          some (alignedValue expected (sampleIdxOf expected esid) oid))
  ∧ (∀ (i : ℕ) (oid : String), tableNonneg actual →
      (unionObsIds actual expected asid esid).get? i = some oid →
      oid ∉ get_observed_observation_ids actual asid false →
      (get_actual_and_expected_vectors actual expected asid esid).1.get? i =
        some 0)
  ∧ (∀ (i : ℕ) (oid : String), tableNonneg expected →
      (unionObsIds actual expected asid esid).get? i = some oid →
      oid ∉ get_observed_observation_ids expected esid false →
      (get_actual_and_expected_vectors actual expected asid esid).2.get? i =
        some 0) := by
  have hzero : ∀ (t : Table) (sid : Option String) (oid : String),
      tableNonneg t → oid ∉ get_observed_observation_ids t sid false →
      alignedValue t (sampleIdxOf t sid) oid = 0 := by
    intro t sid oid hnn hnot
    rw [← getValue_eq_alignedValue]
    have hle : t.getValue oid (effSampleId t sid) ≤ 0 := by
      by_contra hlt
      push_neg at hlt
      exact hnot (mem_observed_of_pos t sid oid hlt)
    exact le_antisymm hle (getValue_nonneg t hnn oid (effSampleId t sid))
  refine ⟨?_, ?_, ?_, ?_, ?_⟩
  · show ((unionObsIds actual expected asid esid).map _).length =
      ((unionObsIds actual expected asid esid).map _).length
    rw [List.length_map, List.length_map]
  · show ((unionObsIds actual expected asid esid).map _).length = _
    rw [List.length_map]
    show (observedIdsList actual asid false ++
      observedIdsList expected esid false).dedup.length = _
    rw [← List.card_toFinset, List.toFinset_append]
    rfl
  · intro i oid hget
    constructor
    · show ((unionObsIds actual expected asid esid).map
        (alignedValue actual (sampleIdxOf actual asid))).get? i = _
      rw [List.get?_map, hget, Option.map_some']
    · show ((unionObsIds actual expected asid esid).map
        (alignedValue expected (sampleIdxOf expected esid))).get? i = _
      rw [List.get?_map, hget, Option.map_some']
  · intro i oid hnn hget hnot
    show ((unionObsIds actual expected asid esid).map
      (alignedValue actual (sampleIdxOf actual asid))).get? i = some 0
    rw [List.get?_map, hget, Option.map_some', hzero actual asid oid hnn hnot]
  · intro i oid hnn hget hnot
    show ((unionObsIds actual expected asid esid).map
      (alignedValue expected (sampleIdxOf expected esid))).get? i = some 0
    rw [List.get?_map, hget, Option.map_some', hzero expected esid oid hnn hnot]

/-- Witness for C6 at a concrete input: actual table observing only `"A"`,
expected table observing only `"B"`; the union has two ids, and at index 1
(`"B"`, absent from the actual table) the actual vector holds `0.0`. -/
theorem get_actual_and_expected_vectors_correct_witness :
    tableNonneg { obs := [{ id := "A", md := .tranks [], counts := [1] }],
                  samples := ["s1"] } ∧
    (unionObsIds
      { obs := [{ id := "A", md := .tranks [], counts := [1] }],
        samples := ["s1"] }
      { obs := [{ id := "B", md := .tranks [], counts := [2] }],
        samples := ["s1"] } none none).get? 1 = some "B" ∧
    "B" ∉ get_observed_observation_ids
      { obs := [{ id := "A", md := .tranks [], counts := [1] }],
        samples := ["s1"] } none false ∧
    (get_actual_and_expected_vectors
      { obs := [{ id := "A", md := .tranks [], counts := [1] }],
        samples := ["s1"] }
      { obs := [{ id := "B", md := .tranks [], counts := [2] }],
        samples := ["s1"] } none none).1.get? 1 = some 0 :=
  ⟨by unfold tableNonneg; decide, by decide, by decide,
    (get_actual_and_expected_vectors_correct
      { obs := [{ id := "A", md := .tranks [], counts := [1] }],
        samples := ["s1"] }
      { obs := [{ id := "B", md := .tranks [], counts := [2] }],
        samples := ["s1"] } none none).2.2.2.1 1 "B"
      (by unfold tableNonneg; decide) (by decide) (by decide)⟩

/-! ## Claim C9 — `get_sample_to_top_params` -/

theorem insertDesc_perm (r : ResultRow) (l : List ResultRow) :
    List.Perm (insertDesc r l) (r :: l) := by
  induction l with
  | nil => exact List.Perm.refl _
  | cons x xs ih =>
    unfold insertDesc
    by_cases h : x.metricValue ≤ r.metricValue
    · rw [if_pos h]
    · rw [if_neg h]
      exact (ih.cons x).trans (List.Perm.swap r x xs)

theorem sortDescByMetric_perm (l : List ResultRow) :
    List.Perm (sortDescByMetric l) l := by
  induction l with
  | nil => exact List.Perm.refl _
  | cons x xs ih =>
    exact (insertDesc_perm x (sortDescByMetric xs)).trans (ih.cons x)

theorem le_foldl_max (l : List ℚ) (a : ℚ) : a ≤ l.foldl max a := by
  induction l generalizing a with
  | nil => exact le_refl a
  | cons x xs ih => exact le_trans (le_max_left a x) (ih (max a x))

theorem mem_le_foldl_max (l : List ℚ) (a x : ℚ) (hx : x ∈ l) :
    x ≤ l.foldl max a := by
  induction l generalizing a with
  | nil => cases hx
  | cons y ys ih =>
    rcases List.mem_cons.mp hx with rfl | h
    · exact le_trans (le_max_right a x) (le_foldl_max ys (max a x))
    · exact ih (max a y) h

theorem foldl_max_mem (l : List ℚ) (a : ℚ) :
    l.foldl max a = a ∨ l.foldl max a ∈ l := by
  induction l generalizing a with
  | nil => exact Or.inl rfl
  | cons x xs ih =>
    have hfold : (x :: xs).foldl max a = xs.foldl max (max a x) := rfl
    rcases ih (max a x) with h | h
    · rcases max_choice a x with h2 | h2
      · exact Or.inl (by rw [hfold, h, h2])
      · refine Or.inr ?_
        rw [hfold, h, h2]
        exact List.mem_cons_self x xs
    · exact Or.inr (List.mem_cons_of_mem x h)

theorem pyMaxQ_spec (l : List ℚ) (hl : l ≠ []) :
    pyMaxQ l ∈ l ∧ ∀ a ∈ l, a ≤ pyMaxQ l := by
  cases l with
  | nil => exact absurd rfl hl
  | cons x xs =>
    constructor
    · show xs.foldl max x ∈ x :: xs
      rcases foldl_max_mem xs x with h | h
      · rw [h]
        exact List.mem_cons_self x xs
      · exact List.mem_cons_of_mem x h
    · intro a ha
      show a ≤ xs.foldl max x
      rcases List.mem_cons.mp ha with rfl | h
      · exact le_foldl_max xs a
      · exact mem_le_foldl_max xs x a h

theorem pyMaxQ_perm {l l2 : List ℚ} (h : List.Perm l l2) :
    pyMaxQ l = pyMaxQ l2 := by
  cases l with
  | nil =>
    rw [h.symm.eq_nil]
  | cons x xs =>
    cases l2 with
    | nil => exact absurd h.eq_nil (by simp)
    | cons y ys =>
      have h1 := pyMaxQ_spec (x :: xs) (by simp)
      have h2 := pyMaxQ_spec (y :: ys) (by simp)
      exact le_antisymm (h2.2 _ (h.mem_iff.mp h1.1)) (h1.2 _ (h.mem_iff.mpr h2.1))

theorem pyMean_perm {l l2 : List ℚ} (h : List.Perm l l2) :
    pyMean l = pyMean l2 := by
  unfold pyMean
  rw [h.sum_eq, h.length_eq]

theorem pyMad_perm {l l2 : List ℚ} (h : List.Perm l l2) :
    pyMad l = pyMad l2 := by
  unfold pyMad
  rw [pyMean_perm h]
  exact pyMean_perm (h.map _)

/-- The three-row example from the spec: method `M` scoring 0.9, 0.85, 0.5
for parameters `p1`, `p2`, `p3` on one (dataset, sample). -/
def madExampleRows : List ResultRow :=
  [⟨"ds", "s1", "M", "p1", 9/10⟩, ⟨"ds", "s1", "M", "p2", 17/20⟩,
   ⟨"ds", "s1", "M", "p3", 1/2⟩]

/-- C9: per (dataset, sample, method), `get_sample_to_top_params` retains
exactly the `Parameters` of the rows whose metric value is at least
(maximum − mean absolute deviation), the maximum and MAD being computed over
that method's rows; in particular for scores [0.9, 0.85, 0.5] the MAD is
below 0.4 and the id scoring 0.5 is excluded while the other two appear. -/
theorem get_sample_to_top_params_correct :
    (∀ (rows : List ResultRow) (dataset sid method p : String),
      p ∈ get_sample_to_top_params rows dataset sid method ↔
        ∃ r ∈ methodRows rows dataset sid method, r.params = p ∧
          pyMaxQ ((methodRows rows dataset sid method).map (·.metricValue)) -
              pyMad ((methodRows rows dataset sid method).map (·.metricValue)) ≤
            r.metricValue)
  ∧ (pyMad ((9:ℚ)/10 :: 17/20 :: 1/2 :: []) < 2/5 ∧
     "p1" ∈ get_sample_to_top_params madExampleRows "ds" "s1" "M" ∧
     "p2" ∈ get_sample_to_top_params madExampleRows "ds" "s1" "M" ∧
     "p3" ∉ get_sample_to_top_params madExampleRows "ds" "s1" "M") := by
  have main : ∀ (rows : List ResultRow) (dataset sid method p : String),
      p ∈ get_sample_to_top_params rows dataset sid method ↔
        ∃ r ∈ methodRows rows dataset sid method, r.params = p ∧
          pyMaxQ ((methodRows rows dataset sid method).map (·.metricValue)) -
              pyMad ((methodRows rows dataset sid method).map (·.metricValue)) ≤
            r.metricValue := by
    intro rows d s m p
    have hperm : List.Perm (methodRows (sortDescByMetric rows) d s m)
        (methodRows rows d s m) := (sortDescByMetric_perm rows).filter _
    have hmax : pyMaxQ ((methodRows (sortDescByMetric rows) d s m).map
        (·.metricValue)) =
        pyMaxQ ((methodRows rows d s m).map (·.metricValue)) :=
      pyMaxQ_perm (hperm.map _)
    have hmad : pyMad ((methodRows (sortDescByMetric rows) d s m).map
        (·.metricValue)) =
        pyMad ((methodRows rows d s m).map (·.metricValue)) :=
      pyMad_perm (hperm.map _)
    unfold get_sample_to_top_params
    simp only [hmax, hmad, List.mem_map, List.mem_filter, decide_eq_true_eq]
    constructor
    · rintro ⟨r, ⟨hr, ht⟩, hp⟩
      exact ⟨r, hperm.mem_iff.mp hr, hp, ht⟩
    · rintro ⟨r, hr, hp, ht⟩
      exact ⟨r, ⟨hperm.mem_iff.mpr hr, ht⟩, hp⟩
  have hMR : methodRows madExampleRows "ds" "s1" "M" = madExampleRows := rfl
  have hvals : madExampleRows.map (fun r => r.metricValue) =
      (9:ℚ)/10 :: 17/20 :: 1/2 :: [] := rfl
  have hmean : pyMean ((9:ℚ)/10 :: 17/20 :: 1/2 :: []) = 3/4 := by
    unfold pyMean
    norm_num
  have habs1 : |(9:ℚ)/10 - 3/4| = 3/20 := by
    rw [show (9:ℚ)/10 - 3/4 = 3/20 from by norm_num]
    exact abs_of_nonneg (by norm_num)
  have habs2 : |(17:ℚ)/20 - 3/4| = 1/10 := by
    rw [show (17:ℚ)/20 - 3/4 = 1/10 from by norm_num]
    exact abs_of_nonneg (by norm_num)
  have habs3 : |(1:ℚ)/2 - 3/4| = 1/4 := by
    rw [show (1:ℚ)/2 - 3/4 = -(1/4) from by norm_num, abs_neg]
    exact abs_of_nonneg (by norm_num)
  have hmad : pyMad ((9:ℚ)/10 :: 17/20 :: 1/2 :: []) = 1/6 := by
    unfold pyMad
    rw [hmean]
    simp only [List.map_cons, List.map_nil]
    rw [habs1, habs2, habs3]
    unfold pyMean
    norm_num
  have hmax : pyMaxQ ((9:ℚ)/10 :: 17/20 :: 1/2 :: []) = 9/10 := by
    rw [show pyMaxQ ((9:ℚ)/10 :: 17/20 :: 1/2 :: []) =
      max (max ((9:ℚ)/10) (17/20)) (1/2) from rfl]
    rw [max_eq_left (by norm_num), max_eq_left (by norm_num)]
  refine ⟨main, ?_, ?_, ?_, ?_⟩
  · rw [hmad]
    norm_num
  · refine (main madExampleRows "ds" "s1" "M" "p1").mpr
      ⟨⟨"ds", "s1", "M", "p1", 9/10⟩, ?_, rfl, ?_⟩
    · rw [hMR]
      exact List.mem_cons_self _ _
    · rw [hMR, hvals, hmax, hmad]
      show (9:ℚ)/10 - 1/6 ≤ 9/10
      norm_num
  · refine (main madExampleRows "ds" "s1" "M" "p2").mpr
      ⟨⟨"ds", "s1", "M", "p2", 17/20⟩, ?_, rfl, ?_⟩
    · rw [hMR]
      exact List.mem_cons_of_mem _ (List.mem_cons_self _ _)
    · rw [hMR, hvals, hmax, hmad]
      show (9:ℚ)/10 - 1/6 ≤ 17/20
      norm_num
  · intro hmem
    obtain ⟨r, hr, hp, ht⟩ := (main madExampleRows "ds" "s1" "M" "p3").mp hmem
    rw [hMR, hvals, hmax, hmad] at ht
    rw [hMR] at hr
    simp only [madExampleRows, List.mem_cons, List.not_mem_nil, or_false]
      at hr
    rcases hr with rfl | rfl | rfl
    · exact (by decide :
        ¬ ((⟨"ds", "s1", "M", "p1", (9:ℚ)/10⟩ : ResultRow).params = "p3")) hp
    · exact (by decide :
        ¬ ((⟨"ds", "s1", "M", "p2", (17:ℚ)/20⟩ : ResultRow).params = "p3")) hp
    · have : ¬ ((9:ℚ)/10 - 1/6 ≤ 1/2) := by norm_num
      exact this ht

